import Mathlib

/-!
Verification of the superhero-PDF repository (src/main.py, src/pdf.py,
src/superhero_client.py) against its natural-language specification.

The Python code is shallowly embedded:
* `SuperHero` mirrors the record produced by `SuperHero.from_api`
  (fields as read by `pdf.py`: `full_name`, `occupation`, `aliases`,
  `alter_egos`, `place_of_birth`, `picture`).
* `prepare_data` mirrors `PDF._prepare_data` (grouping by first
  occupation tag into an insertion-ordered mapping).
* The layout engine (`PDF.create_pdf` and the drawing helpers) is
  embedded as a pure state-transformer over `LayoutState`, emitting a
  trace of `DrawOp`s; the reportlab paragraph-wrap height is an
  opaque oracle `H : String → ℚ → ℚ → ℚ` (message, max width, max
  height ↦ rendered height), as the spec requires.
* The fetch loop of `main` is embedded with explicit fuel and an
  abstract data source; see `fetch_loop`.

All lengths are in points, as in the Python source (`inch = 72`).
-/

/-- `reportlab.lib.units.inch` : one layout unit, 72 points. -/
def inch : ℚ := 72

/-- `self._font = 'Helvetica'` in `PDF.__init__`. -/
def helvetica : String := "Helvetica"

/-- `'_'*80`, the separator line drawn in `PDF.create_pdf`. -/
def sep_line : String := String.mk (List.replicate 80 '_')

/-- A Python value that is either a plain string or a list of strings:
`PDF._print_list` dispatches on `isinstance(s, str)`, so the
`aliases` / `alter_egos` fields can be either shape. -/
inductive StrOrList where
  | str (s : String)
  | list (l : List String)
  deriving DecidableEq, Repr

/-- Modelled from the spec: the `SuperHero` class lives in
`superhero.py`, which is not among the provided sources; its fields are
those read by `pdf.py` (`occupation`, `picture`, `full_name`,
`alter_egos`, `aliases`, `place_of_birth`) and spec §3's HeroRecord
(which adds the integer identifier). Per spec §3 a HeroRecord is an
immutable value record, so equality is structural value equality. -/
structure SuperHero where
  hero_id : Nat
  full_name : String
  occupation : List String
  aliases : StrOrList
  alter_egos : StrOrList
  place_of_birth : String
  picture : String
  deriving DecidableEq, Repr

/-- `PDF._print_list`: a string is returned unchanged, a list is
comma-joined. -/
def print_list : StrOrList → String
  | .str s => s
  | .list l => String.intercalate ", " l

/-- The grouping key used by `PDF._prepare_data`:
`super_hero.occupation[0]`. (`headD ""` is only reached on an empty
occupation list, where the Python raises; the claims assume non-empty
occupation.) -/
def group_key (h : SuperHero) : String := h.occupation.headD ""

/-- One step of `PDF._prepare_data` on the insertion-ordered mapping
(`self.data`), represented as an association list with unique keys:
if `key` is present, append the hero to that group, else add a new
group at the end. -/
def insert_hero (data : List (String × List SuperHero)) (key : String)
    (h : SuperHero) : List (String × List SuperHero) :=
  match data with
  | [] => [(key, [h])]
  | (k, hs) :: rest =>
    if k = key then (k, hs ++ [h]) :: rest
    else (k, hs) :: insert_hero rest key h

/-- `PDF._prepare_data`: fold the hero list into the grouped mapping. -/
def prepare_data (super_heroes : List SuperHero) :
    List (String × List SuperHero) :=
  super_heroes.foldl (fun data h => insert_hero data (group_key h) h) []

/-- Lookup in the grouped mapping (`self.data[key]`), defaulting to the
empty group for absent keys. -/
def lookup_group : List (String × List SuperHero) → String → List SuperHero
  | [], _ => []
  | (k', hs) :: rest, k => if k' = k then hs else lookup_group rest k

/-- The list of keys in order of first occurrence, the iteration order
of a Python dict built by repeated insertion. -/
def first_occ_keys (ks : List String) : List String :=
  ks.foldl (fun acc k => if k ∈ acc then acc else acc ++ [k]) []

-- Layout engine embedding (PDF.create_pdf and drawing helpers)

/-- The reportlab paragraph-wrap oracle: `message.wrap(max_width,
max_height)` returns the rendered height, which the engine feeds back
into cursor arithmetic.  The spec requires treating this as an opaque
backend-returned value. -/
abbrev Oracle := String → ℚ → ℚ → ℚ

/-- One drawing operation emitted to the reportlab canvas. -/
inductive DrawOp where
  | setFont (font : String) (size : Nat)
  | text (msg : String) (x y : ℚ)
  | paragraph (msg : String) (x y : ℚ)
  | image (ref : String) (x y w h : ℚ)
  | pageBreak
  deriving DecidableEq, Repr

/-- The mutable drawing state of a `PDF` object: `self._bottom`
(vertical cursor), `self._page_items`, `self._right_info`,
`self._right_image`, plus the ordered trace of canvas operations. -/
structure LayoutState where
  bottom : ℚ
  page_items : Nat
  right_info : ℚ
  right_image : ℚ
  ops : List DrawOp
  deriving DecidableEq, Repr

/-- The state set up by `PDF.__init__`. -/
def init_state : LayoutState :=
  { bottom := 11 * inch, page_items := 0, right_info := 2*inch + inch/2,
    right_image := inch, ops := [] }

/-- `PDF._draw_paragraph`: wrap the message (height from the oracle),
draw it at `(x, y - h)`, and advance the cursor by `h + 12` points. -/
def draw_paragraph (H : Oracle) (msg : String) (x y max_width max_height : ℚ)
    (st : LayoutState) : LayoutState :=
  let h := H msg max_width max_height
  { st with ops := st.ops ++ [.paragraph msg x (y - h)],
            bottom := st.bottom - h - 12 }

/-- The markup built by `PDF._draw_info_paragraph`:
newlines become `<br />` and the title is bolded. -/
def format_info (title msg : String) : String :=
  "<b>" ++ title ++ ":</b> " ++ msg.replace "\n" "<br />"

/-- `PDF._draw_info_paragraph`: format the labeled message and draw it
at the info margin and current cursor, with the default box
`max_width=5*inch`, `max_height=11*inch`. -/
def draw_info_paragraph (H : Oracle) (title msg : String)
    (st : LayoutState) : LayoutState :=
  draw_paragraph H (format_info title msg) st.right_info st.bottom
    (5*inch) (11*inch) st

/-- `PDF._draw_heading`: set the font, draw the heading at
`(inch, self._bottom)`, advance the cursor by half an inch. -/
def draw_heading (msg : String) (font_size : Nat) (st : LayoutState) :
    LayoutState :=
  { st with ops := st.ops ++ [.setFont helvetica font_size, .text msg inch st.bottom],
            bottom := st.bottom - inch/2 }

/-- `PDF._shared_occupation`: more than one member and the key is not
the placeholder tag `'-'`.  (In `create_pdf` the argument list is
always `self.data[key]`, written here as the entry's own member
list.) -/
def shared_occupation (key : String) (heroes : List SuperHero) : Bool :=
  decide (heroes.length > 1 ∧ key ≠ "-")

/-- The four labeled paragraphs of one hero, in source order:
Full name, Alter Egos, Aliases, Place of Birth
(`pdf.py` lines 185-200). -/
def hero_paragraphs (H : Oracle) (st : LayoutState) (hero : SuperHero) :
    LayoutState :=
  draw_info_paragraph H "Place of Birth" hero.place_of_birth
    (draw_info_paragraph H "Aliases" (print_list hero.aliases)
      (draw_info_paragraph H "Alter Egos" (print_list hero.alter_egos)
        (draw_info_paragraph H "Full name" hero.full_name st)))

/-- `pdf.py` lines 175-202: compute the image slot
(`image_bottom = self._bottom - 640/5`), draw the thumbnail, draw the
four labeled paragraphs, then snap the cursor to `image_bottom`. -/
def hero_body (H : Oracle) (st : LayoutState) (hero : SuperHero) :
    LayoutState :=
  let image_bottom := st.bottom - 640/5
  let st1 : LayoutState :=
    { st with ops := st.ops ++ [.setFont helvetica 11,
        .image hero.picture st.right_image (image_bottom + 20) (480/5) (640/5)] }
  let st2 := hero_paragraphs H st1 hero
  { st2 with bottom := image_bottom }

/-- One iteration of the inner hero loop of `PDF.create_pdf`
(lines 172-215): count the item, place image and paragraphs, draw the
trailing separator when the group is shared and the member equals the
last member (`hero == heroes[-1]`), advance by the fixed gap, and
break the page when the item counter equals exactly 5. -/
def hero_step (H : Oracle) (shared : Bool) (heroes : List SuperHero)
    (st : LayoutState) (hero : SuperHero) : LayoutState :=
  let st1 : LayoutState := { st with page_items := st.page_items + 1 }
  let st2 := hero_body H st1 hero
  let st3 : LayoutState :=
    if shared = true ∧ some hero = heroes.getLast? then
      { st2 with ops := st2.ops ++ [.text sep_line inch st2.bottom],
                 bottom := st2.bottom - inch/4 }
    else st2
  let st4 : LayoutState := { st3 with bottom := st3.bottom - inch/4 }
  if st4.page_items = 5 then
    { st4 with ops := st4.ops ++ [.pageBreak], page_items := 0,
               bottom := 11 * inch }
  else st4

/-- One iteration of the outer group loop of `PDF.create_pdf`
(lines 161-215): reset the margins, widen them and draw the 16pt
heading (counting one page item) when the occupation is shared, then
place every member. -/
def group_step (H : Oracle) (st : LayoutState)
    (entry : String × List SuperHero) : LayoutState :=
  let key := entry.1
  let heroes := entry.2
  let st1 : LayoutState :=
    { st with right_info := 2*inch + inch/2, right_image := inch }
  let st2 : LayoutState :=
    if shared_occupation key heroes then
      let stm : LayoutState :=
        { st1 with right_info := st1.right_info + inch/2,
                   right_image := st1.right_image + inch/2 }
      let sth := draw_heading key 16 stm
      { sth with page_items := sth.page_items + 1 }
    else st1
  heroes.foldl (hero_step H (shared_occupation key heroes) heroes) st2

/-- `PDF.create_pdf` on an already-grouped mapping: draw the 18pt
document title, then process every group.  (Canvas creation and
`save()` emit no drawing operations.) -/
def create_pdf (H : Oracle) (title : String)
    (data : List (String × List SuperHero)) : LayoutState :=
  data.foldl (group_step H) (draw_heading title 18 init_state)

/-- The states at group boundaries: the state before each group and
the final state, computed with the same step function as
`create_pdf`. -/
def group_states (H : Oracle) (title : String)
    (data : List (String × List SuperHero)) : List LayoutState :=
  List.scanl (group_step H) (draw_heading title 18 init_state) data

/-- Recognizes the trailing separator operation (`'_'*80`). -/
def is_sep : DrawOp → Bool
  | .text msg _ _ => msg == sep_line
  | _ => false

/-- Recognizes a page-break signal (`canvas.showPage()`). -/
def is_page_break : DrawOp → Bool
  | .pageBreak => true
  | _ => false

/-- Recognizes the 16pt font selection that starts a group heading
(the only 16pt `setFont` in the program). -/
def is_heading16 : DrawOp → Bool
  | .setFont _ size => size == 16
  | _ => false

-- Fetcher embedding (main.py and the SuperHeroClient outcomes)

/-- The visible outcome of one `SuperHeroClient` request
(`_make_request`, superhero_client.py lines 94-112): `ok` for a 200
response body, `absent` for a 404 (the method returns `None`, falsy in
`main`), `error` when `raise_for_status()` raises `HTTPError` on a
4xx/5xx status (after the transport's transient-retry policy for
502/503/504 is exhausted). -/
inductive ReqResult (α : Type) where
  | ok (value : α)
  | absent
  | error
  deriving DecidableEq, Repr

/-- The loop body of `main` (main.py lines 25-45) for one identifier:
look up the biography; on a publisher match, look up the full record
and append it.  The data source is a pair of abstract response maps
`bio` (id ↦ publisher) and `full` (id ↦ hero record).  Returns the new
accumulator (paired with the id the record was fetched at) and whether
an `HTTPError` was caught and printed. -/
def fetch_step (bio : Nat → ReqResult String) (full : Nat → ReqResult SuperHero)
    (pub : String) (hero_id : Nat) (acc : List (Nat × SuperHero)) :
    List (Nat × SuperHero) × Bool :=
  match bio hero_id with
  | .error => (acc, true)
  | .absent => (acc, false)
  | .ok publisher =>
    if publisher = pub then
      match full hero_id with
      | .error => (acc, true)
      | .absent => (acc, false)
      | .ok hero => (acc ++ [(hero_id, hero)], false)
    else (acc, false)

/-- The running state of the fetch loop: the ids requested so far (in
request order), the ids at which an `HTTPError` was caught and printed,
and the collected records (each paired with the id it was fetched
at). -/
structure FetchState where
  log : List Nat
  errs : List Nat
  out : List (Nat × SuperHero)
  deriving DecidableEq, Repr

/-- The `while len(super_heroes) < 10` loop of `main` (with the target
count `n` as a parameter), with explicit fuel: the Python loop has no
iteration bound (spec §9 flags this), so the embedding runs at most
`fuel` iterations. -/
def fetch_loop (bio : Nat → ReqResult String) (full : Nat → ReqResult SuperHero)
    (pub : String) (n : Nat) : Nat → Nat → FetchState → FetchState
  | 0, _, s => s
  | fuel+1, hero_id, s =>
    if s.out.length < n then
      let nid := hero_id + 1
      let r := fetch_step bio full pub nid s.out
      fetch_loop bio full pub n fuel nid
        { log := s.log ++ [nid],
          errs := s.errs ++ (if r.2 then [nid] else []),
          out := r.1 }
    else s

/-- The fetch phase of `main`: the id cursor starts at 0 and is
incremented before each request, and the state starts empty. -/
def fetch_main (bio : Nat → ReqResult String) (full : Nat → ReqResult SuperHero)
    (pub : String) (n fuel : Nat) : FetchState :=
  fetch_loop bio full pub n fuel 0 { log := [], errs := [], out := [] }

-- Concrete inputs used by witnesses and counterexamples

/-- A zero-height paragraph oracle, a legitimate backend behavior. -/
def H0 : Oracle := fun _ _ _ => 0

/-- A hero whose only occupation tag is the placeholder `'-'`. -/
def hero_a : SuperHero :=
  { hero_id := 1, full_name := "A", occupation := ["-"],
    aliases := .list ["aa"], alter_egos := .str "no alter egos",
    place_of_birth := "ap", picture := "a.jpg" }

/-- A hero with occupation tag `"Vigilante"`. -/
def hero_v : SuperHero :=
  { hero_id := 2, full_name := "V", occupation := ["Vigilante"],
    aliases := .list ["vv"], alter_egos := .str "no alter egos",
    place_of_birth := "vp", picture := "v.jpg" }

/-- A second, distinct hero with occupation tag `"Vigilante"`. -/
def hero_w : SuperHero :=
  { hero_id := 3, full_name := "W", occupation := ["Vigilante"],
    aliases := .list ["ww"], alter_egos := .str "no alter egos",
    place_of_birth := "wp", picture := "w.jpg" }

/-- Grouped input whose first group holds four placeholder-tagged
heroes and whose second group is a shared-occupation pair: the heading
of the second group is drawn when the page-item counter is 4. -/
def counter_data : List (String × List SuperHero) :=
  [("-", [hero_a, hero_a, hero_a, hero_a]),
   ("Vigilante", [hero_v, hero_w])]

/-- Grouped input with one shared-occupation group in which the first
and the last member are equal by value. -/
def dup_data : List (String × List SuperHero) :=
  [("Vigilante", [hero_v, hero_w, hero_v])]

/-- A grouped input that keeps the page-item counter below 4 at every
group boundary. -/
def ok_data : List (String × List SuperHero) :=
  [("Vigilante", [hero_v, hero_w])]

/-- An ungrouped input list: two Vigilantes around one placeholder. -/
def heroes3 : List SuperHero := [hero_v, hero_a, hero_w]

/-- A concrete biography map: id 1 permanently fails, id 2 matches the
target publisher, id 3 is another publisher, all further ids 404. -/
def bio_c : Nat → ReqResult String := fun i =>
  if i = 1 then .error
  else if i = 2 then .ok "DC Comics"
  else if i = 3 then .ok "Marvel"
  else .absent

/-- A concrete full-record map: only id 2 resolves. -/
def full_c : Nat → ReqResult SuperHero := fun i =>
  if i = 2 then .ok hero_v else .absent


-- Grouper lemmas

theorem lookup_insert (data : List (String × List SuperHero)) (key : String)
    (h : SuperHero) (k : String) :
    lookup_group (insert_hero data key h) k =
      if k = key then lookup_group data k ++ [h] else lookup_group data k := by
  induction data with
  | nil =>
    by_cases hk : k = key
    · subst hk; simp [insert_hero, lookup_group]
    · simp [insert_hero, lookup_group, hk, Ne.symm hk]
  | cons p rest ih =>
    obtain ⟨k', hs⟩ := p
    by_cases hk' : k' = key
    · subst hk'
      by_cases hk : k' = k
      · subst hk; simp [insert_hero, lookup_group]
      · rw [if_neg (fun hh : k = k' => hk hh.symm)]
        simp [insert_hero, lookup_group, hk]
    · simp only [insert_hero, if_neg hk']
      by_cases hk : k' = k
      · subst hk
        simp [lookup_group, fun hh : k' = key => hk' hh]
      · simp [lookup_group, hk, ih]

theorem keys_insert (data : List (String × List SuperHero)) (key : String)
    (h : SuperHero) :
    (insert_hero data key h).map Prod.fst =
      if key ∈ data.map Prod.fst then data.map Prod.fst
      else data.map Prod.fst ++ [key] := by
  induction data with
  | nil => simp [insert_hero]
  | cons p rest ih =>
    obtain ⟨k', hs⟩ := p
    by_cases hk' : k' = key
    · subst hk'
      simp [insert_hero]
    · simp only [insert_hero, if_neg hk', List.map_cons]
      rw [ih]
      by_cases hmem : key ∈ rest.map Prod.fst
      · simp [hmem, Ne.symm hk']
      · simp [hmem, Ne.symm hk']

theorem prepare_data_lookup_aux (heroes : List SuperHero)
    (data : List (String × List SuperHero)) (k : String) :
    lookup_group (heroes.foldl (fun d h => insert_hero d (group_key h) h) data) k =
      lookup_group data k ++ heroes.filter (fun h => group_key h = k) := by
  induction heroes generalizing data with
  | nil => simp
  | cons h t ih =>
    simp only [List.foldl_cons, ih, lookup_insert]
    by_cases hk : k = group_key h
    · simp [hk, List.filter_cons]
    · have : ¬ (group_key h = k) := fun hh => hk hh.symm
      simp [if_neg hk, List.filter_cons, this]

theorem prepare_data_keys_aux (heroes : List SuperHero)
    (data : List (String × List SuperHero)) :
    (heroes.foldl (fun d h => insert_hero d (group_key h) h) data).map Prod.fst =
      (heroes.map group_key).foldl
        (fun acc k => if k ∈ acc then acc else acc ++ [k])
        (data.map Prod.fst) := by
  induction heroes generalizing data with
  | nil => simp
  | cons h t ih =>
    simp only [List.foldl_cons, List.map_cons, ih, keys_insert]

theorem first_occ_merge_nodup (ks : List String) (acc : List String)
    (hacc : acc.Nodup) :
    (ks.foldl (fun acc k => if k ∈ acc then acc else acc ++ [k]) acc).Nodup := by
  induction ks generalizing acc with
  | nil => simpa
  | cons k t ih =>
    simp only [List.foldl_cons]
    by_cases hk : k ∈ acc
    · rw [if_pos hk]; exact ih acc hacc
    · rw [if_neg hk]
      exact ih _ (by simp [List.nodup_append, hacc, hk])

-- Structural lemmas about the drawing helpers

@[simp] theorem draw_paragraph_page_items (H : Oracle) (msg : String)
    (x y mw mh : ℚ) (st : LayoutState) :
    (draw_paragraph H msg x y mw mh st).page_items = st.page_items := rfl

@[simp] theorem draw_info_paragraph_page_items (H : Oracle) (title msg : String)
    (st : LayoutState) :
    (draw_info_paragraph H title msg st).page_items = st.page_items := rfl

@[simp] theorem hero_paragraphs_page_items (H : Oracle) (st : LayoutState)
    (hero : SuperHero) :
    (hero_paragraphs H st hero).page_items = st.page_items := rfl

@[simp] theorem hero_body_page_items (H : Oracle) (st : LayoutState)
    (hero : SuperHero) :
    (hero_body H st hero).page_items = st.page_items := rfl

@[simp] theorem draw_heading_page_items (msg : String) (fs : Nat)
    (st : LayoutState) :
    (draw_heading msg fs st).page_items = st.page_items := rfl

@[simp] theorem hero_body_bottom (H : Oracle) (st : LayoutState)
    (hero : SuperHero) :
    (hero_body H st hero).bottom = st.bottom - 640/5 := rfl

theorem hero_step_page_items (H : Oracle) (shared : Bool)
    (heroes : List SuperHero) (st : LayoutState) (hero : SuperHero) :
    (hero_step H shared heroes st hero).page_items =
      if st.page_items + 1 = 5 then 0 else st.page_items + 1 := by
  simp only [hero_step]
  split_ifs with h1 h2 h2 <;> simp_all [hero_body, hero_paragraphs,
    draw_info_paragraph, draw_paragraph]

theorem hero_step_page_items_le (H : Oracle) (shared : Bool)
    (heroes : List SuperHero) (st : LayoutState) (hero : SuperHero)
    (h : st.page_items ≤ 4) :
    (hero_step H shared heroes st hero).page_items ≤ 4 := by
  rw [hero_step_page_items]
  split_ifs with h5
  · exact Nat.zero_le 4
  · omega

theorem foldl_hero_step_page_items_le (H : Oracle) (shared : Bool)
    (heroes members : List SuperHero) (st : LayoutState)
    (h : st.page_items ≤ 4) :
    (members.foldl (hero_step H shared heroes) st).page_items ≤ 4 := by
  induction members generalizing st with
  | nil => simpa
  | cons m t ih =>
    exact ih _ (hero_step_page_items_le H shared heroes st m h)

theorem group_step_page_items_le (H : Oracle) (st : LayoutState)
    (entry : String × List SuperHero)
    (hg : shared_occupation entry.1 entry.2 = true → st.page_items ≤ 3)
    (h : st.page_items ≤ 4) :
    (group_step H st entry).page_items ≤ 4 := by
  obtain ⟨key, heroes⟩ := entry
  simp only [group_step]
  split_ifs with hs
  · exact foldl_hero_step_page_items_le H _ heroes heroes _
      (by simpa using hg hs)
  · exact foldl_hero_step_page_items_le H _ heroes heroes _ (by simpa using h)

-- Trace-counting lemmas

theorem hero_step_countP_sep (H : Oracle) (shared : Bool)
    (heroes : List SuperHero) (st : LayoutState) (hero : SuperHero) :
    (hero_step H shared heroes st hero).ops.countP is_sep =
      st.ops.countP is_sep +
        (if shared = true ∧ some hero = heroes.getLast? then 1 else 0) := by
  simp only [hero_step]
  split_ifs with h1 <;>
    simp [hero_body, hero_paragraphs, draw_info_paragraph, draw_paragraph,
      List.countP_append, List.countP_cons, is_sep]

theorem hero_step_countP_heading16 (H : Oracle) (shared : Bool)
    (heroes : List SuperHero) (st : LayoutState) (hero : SuperHero) :
    (hero_step H shared heroes st hero).ops.countP is_heading16 =
      st.ops.countP is_heading16 := by
  simp only [hero_step]
  split_ifs <;>
    simp [hero_body, hero_paragraphs, draw_info_paragraph, draw_paragraph,
      List.countP_append, List.countP_cons, is_heading16]

theorem hero_step_countP_break (H : Oracle) (shared : Bool)
    (heroes : List SuperHero) (st : LayoutState) (hero : SuperHero) :
    (hero_step H shared heroes st hero).ops.countP is_page_break =
      st.ops.countP is_page_break +
        (if st.page_items + 1 = 5 then 1 else 0) := by
  simp only [hero_step]
  split_ifs with h1 h2 h2 <;>
    simp_all [hero_body, hero_paragraphs, draw_info_paragraph, draw_paragraph,
      List.countP_append, List.countP_cons, is_page_break]

theorem hero_step_break_pos (H : Oracle) (shared : Bool)
    (heroes : List SuperHero) (st : LayoutState) (hero : SuperHero)
    (h5 : st.page_items + 1 = 5) :
    (hero_step H shared heroes st hero).page_items = 0 ∧
    (hero_step H shared heroes st hero).bottom = 11 * inch := by
  simp only [hero_step]
  split_ifs with h1 h2 h2 <;> simp_all

theorem hero_step_break_neg (H : Oracle) (shared : Bool)
    (heroes : List SuperHero) (st : LayoutState) (hero : SuperHero)
    (h5 : st.page_items + 1 ≠ 5) :
    (hero_step H shared heroes st hero).page_items = st.page_items + 1 := by
  rw [hero_step_page_items, if_neg h5]

theorem hero_step_bottom_sep (H : Oracle) (shared : Bool)
    (heroes : List SuperHero) (st : LayoutState) (hero : SuperHero)
    (hsep : shared = true ∧ some hero = heroes.getLast?)
    (h5 : st.page_items + 1 ≠ 5) :
    (hero_step H shared heroes st hero).bottom =
      st.bottom - 640/5 - inch/4 - inch/4 := by
  simp only [hero_step]
  split_ifs with h1 <;> simp_all

theorem hero_step_bottom_nosep (H : Oracle) (shared : Bool)
    (heroes : List SuperHero) (st : LayoutState) (hero : SuperHero)
    (hsep : ¬ (shared = true ∧ some hero = heroes.getLast?))
    (h5 : st.page_items + 1 ≠ 5) :
    (hero_step H shared heroes st hero).bottom =
      st.bottom - 640/5 - inch/4 := by
  simp only [hero_step]
  split_ifs with h1 <;> simp_all

theorem foldl_hero_step_countP_sep_false (H : Oracle)
    (heroes members : List SuperHero) (st : LayoutState) :
    ((members.foldl (hero_step H false heroes) st).ops.countP is_sep) =
      st.ops.countP is_sep := by
  induction members generalizing st with
  | nil => rfl
  | cons m t ih =>
    rw [List.foldl_cons, ih, hero_step_countP_sep]
    simp

theorem foldl_hero_step_countP_heading16 (H : Oracle) (shared : Bool)
    (heroes members : List SuperHero) (st : LayoutState) :
    ((members.foldl (hero_step H shared heroes) st).ops.countP is_heading16) =
      st.ops.countP is_heading16 := by
  induction members generalizing st with
  | nil => rfl
  | cons m t ih =>
    rw [List.foldl_cons, ih, hero_step_countP_heading16]

theorem group_step_countP_heading16 (H : Oracle) (st : LayoutState)
    (key : String) (heroes : List SuperHero) :
    (group_step H st (key, heroes)).ops.countP is_heading16 =
      st.ops.countP is_heading16 +
        (if shared_occupation key heroes then 1 else 0) := by
  simp only [group_step]
  split_ifs with hs <;>
    simp [foldl_hero_step_countP_heading16, draw_heading,
      List.countP_append, List.countP_cons, is_heading16]

theorem group_step_countP_sep_nonshared (H : Oracle) (st : LayoutState)
    (key : String) (heroes : List SuperHero)
    (h : ¬ (heroes.length > 1 ∧ key ≠ "-")) :
    (group_step H st (key, heroes)).ops.countP is_sep =
      st.ops.countP is_sep := by
  have hs : shared_occupation key heroes = false := by
    simp [shared_occupation, h]
  simp only [group_step, hs, Bool.false_eq_true, reduceIte]
  exact foldl_hero_step_countP_sep_false H heroes heroes _

-- Reachable-state lemmas

theorem foldl_mem_scanl {α β : Type} (f : α → β → α) (b : α) (l : List β) :
    l.foldl f b ∈ List.scanl f b l := by
  induction l generalizing b with
  | nil => simp [List.scanl]
  | cons a t ih =>
    rw [List.foldl_cons, List.scanl_cons]
    exact List.mem_cons_of_mem _ (ih (f b a))

theorem scanl_group_page_items_le (H : Oracle)
    (data : List (String × List SuperHero)) (st : LayoutState)
    (hst : st.page_items ≤ 4)
    (hg : ∀ p ∈ (List.scanl (group_step H) st data).zip data,
        shared_occupation p.2.1 p.2.2 = true → p.1.page_items ≤ 3) :
    ∀ s ∈ List.scanl (group_step H) st data, s.page_items ≤ 4 := by
  induction data generalizing st with
  | nil =>
    intro s hs
    rw [List.scanl_nil, List.mem_singleton] at hs
    subst hs; exact hst
  | cons g t ih =>
    intro s hs
    rw [List.scanl_cons] at hs
    rcases List.mem_cons.mp hs with h | h
    · subst h; exact hst
    · refine ih (group_step H st g) ?_ ?_ s h
      · refine group_step_page_items_le H st g ?_ hst
        intro hsh
        refine hg (st, g) ?_ hsh
        rw [List.scanl_cons]
        simp only [List.singleton_append, List.zip_cons_cons]
        exact List.mem_cons_self _ _
      · intro p hp hsh
        refine hg p ?_ hsh
        rw [List.scanl_cons]
        simp only [List.singleton_append, List.zip_cons_cons]
        exact List.mem_cons_of_mem _ hp

-- Fetcher lemmas

theorem range'_pairwise_lt (a k : Nat) :
    (List.range' a k).Pairwise (· < ·) := by
  induction k generalizing a with
  | zero => simp
  | succ k ih =>
    rw [List.range'_succ a k 1]
    refine List.Pairwise.cons ?_ (ih (a+1))
    intro b hb
    have := List.mem_range'_1.mp hb
    omega

theorem fetch_step_length (bio : Nat → ReqResult String)
    (full : Nat → ReqResult SuperHero) (pub : String) (hero_id : Nat)
    (acc : List (Nat × SuperHero)) :
    (fetch_step bio full pub hero_id acc).1.length ≤ acc.length + 1 := by
  unfold fetch_step
  cases bio hero_id with
  | ok p =>
    by_cases hp : p = pub
    · cases full hero_id <;> simp [hp]
    · simp [hp]
  | absent => simp
  | error => simp

theorem fetch_step_publisher (bio : Nat → ReqResult String)
    (full : Nat → ReqResult SuperHero) (pub : String) (hero_id : Nat)
    (acc : List (Nat × SuperHero))
    (hacc : ∀ p ∈ acc, bio p.1 = .ok pub) :
    ∀ p ∈ (fetch_step bio full pub hero_id acc).1, bio p.1 = .ok pub := by
  unfold fetch_step
  cases hbio : bio hero_id with
  | ok q =>
    by_cases hp : q = pub
    · cases full hero_id with
      | ok hero =>
        intro p hp'
        simp only [hp, if_pos rfl] at hp'
        rcases List.mem_append.mp hp' with h | h
        · exact hacc p h
        · rw [List.mem_singleton] at h
          subst h
          rw [hbio, hp]
      | absent => simpa [hp] using hacc
      | error => simpa [hp] using hacc
    · simpa [hp] using hacc
  | absent => simpa using hacc
  | error => simpa using hacc

theorem fetch_loop_length (bio : Nat → ReqResult String)
    (full : Nat → ReqResult SuperHero) (pub : String) (n : Nat)
    (fuel : Nat) (hero_id : Nat) (s : FetchState)
    (hlen : s.out.length ≤ n) :
    (fetch_loop bio full pub n fuel hero_id s).out.length ≤ n := by
  induction fuel generalizing hero_id s with
  | zero => simpa [fetch_loop]
  | succ fuel ih =>
    rw [fetch_loop]
    split_ifs with hlt
    · refine ih _ _ ?_
      have := fetch_step_length bio full pub (hero_id + 1) s.out
      simp only
      omega
    · simpa

theorem fetch_loop_publisher (bio : Nat → ReqResult String)
    (full : Nat → ReqResult SuperHero) (pub : String) (n : Nat)
    (fuel : Nat) (hero_id : Nat) (s : FetchState)
    (hacc : ∀ p ∈ s.out, bio p.1 = .ok pub) :
    ∀ p ∈ (fetch_loop bio full pub n fuel hero_id s).out, bio p.1 = .ok pub := by
  induction fuel generalizing hero_id s with
  | zero => exact fun p hp => hacc p hp
  | succ fuel ih =>
    rw [fetch_loop]
    split_ifs with hlt
    · exact ih _ _ (fetch_step_publisher bio full pub (hero_id + 1) s.out hacc)
    · exact fun p hp => hacc p hp

theorem fetch_loop_log (bio : Nat → ReqResult String)
    (full : Nat → ReqResult SuperHero) (pub : String) (n : Nat)
    (fuel : Nat) (hero_id : Nat) (s : FetchState) :
    ∃ k, k ≤ fuel ∧
      (fetch_loop bio full pub n fuel hero_id s).log =
        s.log ++ List.range' (hero_id + 1) k := by
  induction fuel generalizing hero_id s with
  | zero => exact ⟨0, Nat.le_refl 0, by simp [fetch_loop]⟩
  | succ fuel ih =>
    rw [fetch_loop]
    split_ifs with hlt
    · obtain ⟨k, hk, hlog⟩ := ih (hero_id + 1)
        { log := s.log ++ [hero_id + 1],
          errs := s.errs ++ (if (fetch_step bio full pub (hero_id + 1) s.out).2
            then [hero_id + 1] else []),
          out := (fetch_step bio full pub (hero_id + 1) s.out).1 }
      refine ⟨k + 1, Nat.succ_le_succ hk, ?_⟩
      rw [hlog]
      simp only [List.append_assoc, List.singleton_append]
      rw [List.range'_succ (hero_id + 1) k 1]
    · exact ⟨0, Nat.zero_le (fuel + 1), by simp⟩

-- Claim theorems

/-- C7: for every data-source behavior, target publisher and target
count, the fetch phase of `main` collects at most `n` records, every
collected record was fetched at an identifier whose biography lookup
returned the target publisher, and the identifiers requested are
exactly the consecutive ids 1, 2, ..., k: the id cursor starts at 1
and is strictly increasing, never revisiting an id. -/
theorem fetcher_invariant (bio : Nat → ReqResult String)
    (full : Nat → ReqResult SuperHero) (pub : String) (n fuel : Nat) :
    (fetch_main bio full pub n fuel).out.length ≤ n
    ∧ (∀ p ∈ (fetch_main bio full pub n fuel).out, bio p.1 = .ok pub)
    ∧ (∃ k, k ≤ fuel ∧ (fetch_main bio full pub n fuel).log = List.range' 1 k)
    ∧ (fetch_main bio full pub n fuel).log.Pairwise (· < ·) := by
  refine ⟨?_, ?_, ?_, ?_⟩
  · exact fetch_loop_length bio full pub n fuel 0 _ (by simp)
  · exact fetch_loop_publisher bio full pub n fuel 0 _ (by simp)
  · obtain ⟨k, hk, hlog⟩ := fetch_loop_log bio full pub n fuel 0 _
    exact ⟨k, hk, by simpa using hlog⟩
  · obtain ⟨k, hk, hlog⟩ := fetch_loop_log bio full pub n fuel 0 _
    rw [fetch_main] at *
    rw [hlog]
    simpa using range'_pairwise_lt 1 k

/-- C8: a permanent HTTP failure (an `HTTPError` raised by the client)
at an identifier is caught by `main`'s `except` clause: the id is
logged to the error log, no record is appended, and the loop goes on
with the next identifier — it is never fatal.  The first conjunct is a
failing biography lookup, the second a failing full-record lookup
after a publisher match. -/
theorem permanent_failure_skipped (bio : Nat → ReqResult String)
    (full : Nat → ReqResult SuperHero) (pub : String) (n fuel hero_id : Nat)
    (s : FetchState) (hlt : s.out.length < n) :
    (bio (hero_id + 1) = .error →
      fetch_loop bio full pub n (fuel + 1) hero_id s =
        fetch_loop bio full pub n fuel (hero_id + 1)
          { log := s.log ++ [hero_id + 1], errs := s.errs ++ [hero_id + 1],
            out := s.out })
    ∧ (∀ q, bio (hero_id + 1) = .ok q → q = pub → full (hero_id + 1) = .error →
      fetch_loop bio full pub n (fuel + 1) hero_id s =
        fetch_loop bio full pub n fuel (hero_id + 1)
          { log := s.log ++ [hero_id + 1], errs := s.errs ++ [hero_id + 1],
            out := s.out }) := by
  constructor
  · intro herr
    rw [fetch_loop, if_pos hlt]
    simp [fetch_step, herr]
  · intro q hq hqpub herr
    rw [fetch_loop, if_pos hlt]
    simp [fetch_step, hq, hqpub, herr]

/-- Witness for C8: with the concrete data source `bio_c` (id 1
errors), one loop iteration from the start state records the error and
continues at id 1 with nothing collected. -/
theorem permanent_failure_skipped_witness :
    ({ log := [], errs := [], out := [] } : FetchState).out.length < 10
    ∧ bio_c 1 = .error
    ∧ fetch_loop bio_c full_c "DC Comics" 10 3 0
        { log := [], errs := [], out := [] } =
      fetch_loop bio_c full_c "DC Comics" 10 2 1
        { log := [1], errs := [1], out := [] } :=
  ⟨by decide, by decide,
    (permanent_failure_skipped bio_c full_c "DC Comics" 10 2 0
      { log := [], errs := [], out := [] } (by decide)).1 (by decide)⟩

theorem scanl_hero_page_items_le (H : Oracle) (shared : Bool)
    (heroes members : List SuperHero) (st : LayoutState)
    (hst : st.page_items ≤ 4) :
    ∀ s ∈ List.scanl (hero_step H shared heroes) st members,
      s.page_items ≤ 4 := by
  induction members generalizing st with
  | nil =>
    intro s hs
    rw [List.scanl_nil, List.mem_singleton] at hs
    subst hs; exact hst
  | cons m t ih =>
    intro s hs
    rw [List.scanl_cons] at hs
    rcases List.mem_cons.mp hs with h | h
    · subst h; exact hst
    · exact ih _ (hero_step_page_items_le H shared heroes st m hst) s h

/-- C1 (amended): provided every shared-occupation heading is drawn
while the page-item counter is at most 3, the counter is at most 4 at
every group boundary, at every hero boundary and at the end of the
run (hence in [0,5] throughout, since each placement raises it by one
before the check); unconditionally, one hero placement emits a page
break exactly when the counter reaches 5, the counter is reset to 0
exactly then, and immediately after a page break the cursor equals
the page-top constant 11 inches. -/
theorem layout_page_invariant (H : Oracle) (title : String)
    (data : List (String × List SuperHero))
    (hg : ∀ p ∈ (group_states H title data).zip data,
        shared_occupation p.2.1 p.2.2 = true → p.1.page_items ≤ 3) :
    (∀ s ∈ group_states H title data, s.page_items ≤ 4)
    ∧ (∀ (shared : Bool) (heroes members : List SuperHero) (st : LayoutState),
        st.page_items ≤ 4 →
          ∀ s ∈ List.scanl (hero_step H shared heroes) st members,
            s.page_items ≤ 4)
    ∧ (create_pdf H title data).page_items ≤ 4
    ∧ (∀ (shared : Bool) (heroes : List SuperHero) (st : LayoutState)
        (hero : SuperHero),
        (hero_step H shared heroes st hero).ops.countP is_page_break =
          st.ops.countP is_page_break + (if st.page_items + 1 = 5 then 1 else 0))
    ∧ (∀ (shared : Bool) (heroes : List SuperHero) (st : LayoutState)
        (hero : SuperHero), st.page_items + 1 = 5 →
        (hero_step H shared heroes st hero).page_items = 0 ∧
        (hero_step H shared heroes st hero).bottom = 11 * inch)
    ∧ (∀ (shared : Bool) (heroes : List SuperHero) (st : LayoutState)
        (hero : SuperHero), st.page_items + 1 ≠ 5 →
        (hero_step H shared heroes st hero).page_items = st.page_items + 1) := by
  have hmain := scanl_group_page_items_le H data (draw_heading title 18 init_state)
    (by simp [init_state]) hg
  refine ⟨hmain, ?_, ?_, ?_, ?_, ?_⟩
  · intro shared heroes members st hst
    exact scanl_hero_page_items_le H shared heroes members st hst
  · exact hmain _ (foldl_mem_scanl _ _ _)
  · intro shared heroes st hero
    exact hero_step_countP_break H shared heroes st hero
  · intro shared heroes st hero h5
    exact hero_step_break_pos H shared heroes st hero h5
  · intro shared heroes st hero h5
    exact hero_step_break_neg H shared heroes st hero h5

/-- Witness for C1 at a concrete grouped input satisfying the
heading guard. -/
theorem layout_page_invariant_witness :
    (∀ p ∈ (group_states H0 "T" ok_data).zip ok_data,
        shared_occupation p.2.1 p.2.2 = true → p.1.page_items ≤ 3)
    ∧ (∀ s ∈ group_states H0 "T" ok_data, s.page_items ≤ 4)
    ∧ (create_pdf H0 "T" ok_data).page_items ≤ 4 :=
  ⟨by decide,
    (layout_page_invariant H0 "T" ok_data (by decide)).1,
    (layout_page_invariant H0 "T" ok_data (by decide)).2.2.1⟩

/-- C1 counterexample: on `counter_data` the second group's heading is
drawn when the counter is 4, so the counter passes the `== 5` check
between the checks; at the end of the run it is 7 (outside [0,5]) and
no page break was ever signaled, although seven page items were
placed. -/
theorem page_counter_escapes :
    5 < (create_pdf H0 "T" counter_data).page_items ∧
    (create_pdf H0 "T" counter_data).ops.countP is_page_break = 0 := by
  decide

theorem shared_occupation_iff (key : String) (heroes : List SuperHero) :
    shared_occupation key heroes = true ↔ (heroes.length > 1 ∧ key ≠ "-") := by
  simp [shared_occupation]

/-- C2: a 16pt group heading is drawn for a group exactly when it has
more than one member and its key is not the placeholder `'-'`; when it
is drawn, the occupation name is drawn at 16pt at the heading margin,
the page-item counter advances by one, and the info and image margins
are widened by half an inch (0.5 layout unit) over their per-group
baselines of 2.5 inches and 1 inch. -/
theorem group_heading_spec (H : Oracle) (st : LayoutState) (key : String)
    (heroes : List SuperHero) :
    (group_step H st (key, heroes)).ops.countP is_heading16 =
      st.ops.countP is_heading16 +
        (if heroes.length > 1 ∧ key ≠ "-" then 1 else 0)
    ∧ group_step H st (key, heroes) =
        (if heroes.length > 1 ∧ key ≠ "-" then
          heroes.foldl (hero_step H (shared_occupation key heroes) heroes)
            { st with right_info := 2*inch + inch/2 + inch/2,
                      right_image := inch + inch/2,
                      bottom := st.bottom - inch/2,
                      page_items := st.page_items + 1,
                      ops := st.ops ++ [.setFont helvetica 16, .text key inch st.bottom] }
        else
          heroes.foldl (hero_step H (shared_occupation key heroes) heroes)
            { st with right_info := 2*inch + inch/2, right_image := inch }) := by
  constructor
  · rw [group_step_countP_heading16]
    congr 1
    by_cases hs : heroes.length > 1 ∧ key ≠ "-"
    · rw [if_pos ((shared_occupation_iff key heroes).mpr hs), if_pos hs]
    · rw [if_neg (fun hh => hs ((shared_occupation_iff key heroes).mp hh)),
        if_neg hs]
  · by_cases hs : heroes.length > 1 ∧ key ≠ "-"
    · have hb : shared_occupation key heroes = true :=
        (shared_occupation_iff key heroes).mpr hs
      rw [if_pos hs]
      simp [group_step, hb, draw_heading]
    · have hb : shared_occupation key heroes = false := by
        rw [Bool.eq_false_iff]
        intro hh
        exact hs ((shared_occupation_iff key heroes).mp hh)
      rw [if_neg hs]
      simp [group_step, hb]

/-- C3: for every ordered input list of hero records with non-empty
occupation lists, `prepare_data` groups every record into exactly one
group, the one keyed by the first element of its occupation list: the
key sequence is exactly the keys in order of first occurrence
(without duplicates), and each group's member list is exactly the
input-order sublist of records bearing that key. -/
theorem grouper_correct (heroes : List SuperHero)
    (_hocc : ∀ h ∈ heroes, h.occupation ≠ []) :
    (prepare_data heroes).map Prod.fst = first_occ_keys (heroes.map group_key)
    ∧ ((prepare_data heroes).map Prod.fst).Nodup
    ∧ ∀ k, lookup_group (prepare_data heroes) k =
        heroes.filter (fun h => group_key h = k) := by
  refine ⟨?_, ?_, ?_⟩
  · simpa [first_occ_keys] using prepare_data_keys_aux heroes []
  · have hkeys := prepare_data_keys_aux heroes []
    rw [show ((([] : List (String × List SuperHero))).map Prod.fst) = [] from rfl] at hkeys
    rw [prepare_data, hkeys]
    exact first_occ_merge_nodup (heroes.map group_key) [] List.nodup_nil
  · intro k
    simpa using prepare_data_lookup_aux heroes [] k

/-- Witness for C3 at a concrete input of three records and two
distinct keys. -/
theorem grouper_correct_witness :
    (∀ h ∈ heroes3, h.occupation ≠ [])
    ∧ ((prepare_data heroes3).map Prod.fst = first_occ_keys (heroes3.map group_key)
      ∧ ((prepare_data heroes3).map Prod.fst).Nodup
      ∧ ∀ k, lookup_group (prepare_data heroes3) k =
          heroes3.filter (fun h => group_key h = k)) :=
  ⟨by decide, grouper_correct heroes3 (by decide)⟩

/-- C4 (amended): every labeled-paragraph draw call reduces the
vertical cursor by exactly the backend-returned rendered height plus a
fixed 12-point line gap — 12 points is one sixth of a layout unit
(one inch), not 12 layout units. -/
theorem paragraph_cursor_advance (H : Oracle) :
    (∀ (msg : String) (x y mw mh : ℚ) (st : LayoutState),
        (draw_paragraph H msg x y mw mh st).bottom =
          st.bottom - H msg mw mh - 12)
    ∧ (∀ (title msg : String) (st : LayoutState),
        (draw_info_paragraph H title msg st).bottom =
          st.bottom - H (format_info title msg) (5*inch) (11*inch) - 12)
    ∧ (12 : ℚ) = inch / 6 :=
  ⟨fun _ _ _ _ _ _ => rfl, fun _ _ _ => rfl, by norm_num [inch]⟩

/-- C4 counterexample: with a zero-height wrap, one labeled-paragraph
call moves the cursor down by 12 points; the claim's reading — the
rendered height plus a 12 layout-unit (12 inch) gap — fails at this
input. -/
theorem paragraph_gap_not_twelve_units :
    (draw_info_paragraph H0 "Full name" "m" init_state).bottom ≠
      init_state.bottom
        - H0 (format_info "Full name" "m") (5*inch) (11*inch)
        - 12 * inch := by
  simp only [draw_info_paragraph, draw_paragraph, H0, init_state, inch]
  norm_num

/-- C5: after the four labeled paragraphs of a hero are drawn, the
cursor is set to the image-slot position computed at hero start
(start cursor minus the fixed 640/5 offset), for every paragraph
oracle — even though the paragraphs themselves moved the cursor by
the sum of their four rendered heights plus four 12-point gaps, which
the snap discards: image height, not text height, governs the
vertical advancement. -/
theorem hero_cursor_snap (H H2 : Oracle) (st : LayoutState)
    (hero : SuperHero) :
    (hero_body H st hero).bottom = st.bottom - 640/5
    ∧ (hero_body H st hero).bottom = (hero_body H2 st hero).bottom
    ∧ (hero_paragraphs H st hero).bottom = st.bottom
        - H (format_info "Full name" hero.full_name) (5*inch) (11*inch)
        - H (format_info "Alter Egos" (print_list hero.alter_egos)) (5*inch) (11*inch)
        - H (format_info "Aliases" (print_list hero.aliases)) (5*inch) (11*inch)
        - H (format_info "Place of Birth" hero.place_of_birth) (5*inch) (11*inch)
        - 48 := by
  refine ⟨rfl, rfl, ?_⟩
  simp only [hero_paragraphs, draw_info_paragraph, draw_paragraph]
  ring

/-- C6 (amended): one hero placement draws the full-width separator
line exactly when the group is shared and the member is equal in value
to the group's last member (`hero == heroes[-1]`), not exactly when it
occupies the last position; when the separator is drawn the hero
advances the cursor by 640/5 plus two 0.25-unit gaps, otherwise by
640/5 plus one 0.25-unit gap (absent a page break); and a group with a
single member or with the placeholder key `'-'` never draws a
separator. -/
theorem separator_spec (H : Oracle) :
    (∀ (shared : Bool) (heroes : List SuperHero) (st : LayoutState)
      (hero : SuperHero),
        (hero_step H shared heroes st hero).ops.countP is_sep =
          st.ops.countP is_sep +
            (if shared = true ∧ some hero = heroes.getLast? then 1 else 0))
    ∧ (∀ (shared : Bool) (heroes : List SuperHero) (st : LayoutState)
      (hero : SuperHero),
        shared = true ∧ some hero = heroes.getLast? →
          st.page_items + 1 ≠ 5 →
            (hero_step H shared heroes st hero).bottom =
              st.bottom - 640/5 - inch/4 - inch/4)
    ∧ (∀ (shared : Bool) (heroes : List SuperHero) (st : LayoutState)
      (hero : SuperHero),
        ¬(shared = true ∧ some hero = heroes.getLast?) →
          st.page_items + 1 ≠ 5 →
            (hero_step H shared heroes st hero).bottom =
              st.bottom - 640/5 - inch/4)
    ∧ (∀ (key : String) (heroes : List SuperHero) (st : LayoutState),
        ¬(heroes.length > 1 ∧ key ≠ "-") →
          (group_step H st (key, heroes)).ops.countP is_sep =
            st.ops.countP is_sep) := by
  refine ⟨?_, ?_, ?_, ?_⟩
  · intro shared heroes st hero
    exact hero_step_countP_sep H shared heroes st hero
  · intro shared heroes st hero hsep h5
    exact hero_step_bottom_sep H shared heroes st hero hsep h5
  · intro shared heroes st hero hsep h5
    exact hero_step_bottom_nosep H shared heroes st hero hsep h5
  · intro key heroes st h
    exact group_step_countP_sep_nonshared H st key heroes h

/-- Witness for C6: the last member of a shared pair draws the
separator and advances the cursor by the separator gap plus the fixed
gap. -/
theorem separator_spec_witness :
    (true = true ∧ some hero_v = [hero_w, hero_v].getLast?)
    ∧ init_state.page_items + 1 ≠ 5
    ∧ (hero_step H0 true [hero_w, hero_v] init_state hero_v).bottom =
        init_state.bottom - 640/5 - inch/4 - inch/4 :=
  ⟨by decide, by decide,
    (separator_spec H0).2.1 true [hero_w, hero_v] init_state hero_v
      (by decide) (by decide)⟩

/-- C6 counterexample: in the shared group `[hero_v, hero_w, hero_v]`
two separator lines are drawn (op indices 8 and 21 of the group
trace); the one at index 8 follows the first member — which is not in
the last position — and precedes the second member's first operation
(the 11pt setFont at index 9), refuting "a separator is drawn iff the
member is the last in the group". -/
theorem separator_after_nonlast_member :
    ((group_step H0 init_state
        ("Vigilante", [hero_v, hero_w, hero_v])).ops.countP is_sep = 2)
    ∧ is_sep ((group_step H0 init_state
        ("Vigilante", [hero_v, hero_w, hero_v])).ops.getD 8 .pageBreak) = true
    ∧ ((group_step H0 init_state
        ("Vigilante", [hero_v, hero_w, hero_v])).ops.getD 9 .pageBreak)
          = .setFont helvetica 11 := by
  decide

/-- C9: the layout engine is deterministic — two runs from the freshly
initialized state on equal grouped inputs, equal titles and equal
backend height oracles produce identical states, hence identical
ordered traces of draw operations and page-break signals. -/
theorem layout_deterministic (H1 H2 : Oracle) (t1 t2 : String)
    (d1 d2 : List (String × List SuperHero))
    (hH : H1 = H2) (ht : t1 = t2) (hd : d1 = d2) :
    create_pdf H1 t1 d1 = create_pdf H2 t2 d2 := by
  subst hH; subst ht; subst hd; rfl

/-- Witness for C9 at a concrete input. -/
theorem layout_deterministic_witness :
    H0 = H0 ∧ "T" = "T" ∧ dup_data = dup_data ∧
      create_pdf H0 "T" dup_data = create_pdf H0 "T" dup_data :=
  ⟨rfl, rfl, rfl,
    layout_deterministic H0 H0 "T" "T" dup_data dup_data rfl rfl rfl⟩

/-- C10: on `dup_data` — one shared group whose first and last members
are equal by value — the full run draws two separator lines (op
indices 10 and 23 of a 24-operation trace); the one at index 10 comes
right after the first member's operations and before the second
member's first operation (the 11pt setFont at index 11): the earlier
value-equal member receives the trailing separator as well as the
final one, because `hero == heroes[-1]` compares by value, not by
position. -/
theorem duplicate_member_double_separator :
    ((create_pdf H0 "T" dup_data).ops.countP is_sep = 2)
    ∧ is_sep ((create_pdf H0 "T" dup_data).ops.getD 10 .pageBreak) = true
    ∧ is_sep ((create_pdf H0 "T" dup_data).ops.getD 23 .pageBreak) = true
    ∧ ((create_pdf H0 "T" dup_data).ops.getD 11 .pageBreak)
        = .setFont helvetica 11
    ∧ (create_pdf H0 "T" dup_data).ops.length = 24 := by
  decide

/-- Witness for C7 at a concrete data source and fuel. -/
theorem fetcher_invariant_witness :
    (fetch_main bio_c full_c "DC Comics" 10 4).out.length ≤ 10
    ∧ (∀ p ∈ (fetch_main bio_c full_c "DC Comics" 10 4).out,
        bio_c p.1 = .ok "DC Comics")
    ∧ (∃ k, k ≤ 4 ∧
        (fetch_main bio_c full_c "DC Comics" 10 4).log = List.range' 1 k)
    ∧ (fetch_main bio_c full_c "DC Comics" 10 4).log.Pairwise (· < ·) :=
  fetcher_invariant bio_c full_c "DC Comics" 10 4
